import Mathlib

/-!
Verification of the worker/coordinator orchestration layer of the
YouTube downloader application (src/youtube_downloader.py).

The Python source is shallowly embedded: the two background workers
(`fetch_video_info`, `download_videos`) become pure functions from an
oracle describing the external extraction/download library to the list
of messages they post on the message queue (and, for the download
worker, the list of URLs actually downloaded); the coordinator's event
handling and message draining become a step function on an explicit
state type.
-/

/-- `VideoInfo` dataclass (src lines 75-84). -/
structure VideoInfo where
  id : String
  title : String
  duration : String
  uploader : String
  url : String
  thumbnail : String := ""
  selected : Bool := false
deriving DecidableEq

/-- A message posted on `self.message_queue`: the tag strings
`"status"`, `"progress"`, `"videos"` used in the source become
constructors. -/
inductive Msg where
  | status (text : String)
  | progress (text : String)
  | result (videos : List VideoInfo)
deriving DecidableEq

/-- One entry of a yt-dlp info dict, restricted to the keys the source
reads (`id`, `title`, `duration`, `uploader`, `channel`, `url`,
`webpage_url`, `thumbnail`).  A missing key is `none`. -/
structure Entry where
  id : Option String := none
  title : Option String := none
  duration : Option Nat := none
  uploader : Option String := none
  channel : Option String := none
  url : Option String := none
  webpage_url : Option String := none
  thumbnail : Option String := none
deriving DecidableEq

/-- The info dict returned by the initial shallow (`extract_flat`)
resolution: possibly a playlist (an `entries` list whose elements may be
null) and the coarse single-video keys. -/
structure ShallowInfo where
  entries : Option (List (Option Entry)) := none
  id : Option String := none
  title : Option String := none
  duration : Option Nat := none
  uploader : Option String := none
  thumbnail : Option String := none
deriving DecidableEq

/-- Oracle for the external yt-dlp library: the outcome of the initial
shallow `extract_info` call, and the outcome of a detailed
`extract_info` call keyed by the URL it is given.  `Except.error e`
models a raised exception whose `str` is `e`. -/
structure Extractor where
  shallow : Except String ShallowInfo
  detail : String → Except String Entry

/-- Python truthiness of an optional string (`None` and `""` are falsy). -/
def strTruthy : Option String → Bool
  | none => false
  | some s => s ≠ ""

/-- Python `a or b` on optional strings. -/
def pyOr (a b : Option String) : Option String :=
  if strTruthy a then a else b

/-- Python `a or d` where `d` is a string literal: the final stage of an
`or`-chain such as `x.get('title') or 'Untitled'`. -/
def pyOrD (a : Option String) (d : String) : String :=
  match a with
  | some s => if s = "" then d else s
  | none => d

/-- Python truthiness of an optional number (`None` and `0` are falsy). -/
def natTruthy : Option Nat → Bool
  | none => false
  | some n => n ≠ 0

/-- Python `a or b or 0` on optional numbers, as in
`single_info.get('duration') or entry.get('duration') or 0`. -/
def pyOrNat (a b : Option Nat) : Nat :=
  if natTruthy a then a.getD 0 else if natTruthy b then b.getD 0 else 0

/-- Two-digit zero padding, Python's `f"{n:02d}"` for `n : Nat`. -/
def pad2 (n : Nat) : String :=
  if n < 10 then "0" ++ toString n else toString n

/-- `YouTubeDownloader._format_duration` (src lines 671-683). -/
def format_duration (seconds : Nat) : String :=
  if seconds = 0 then "0:00"
  else
    let hours := seconds / 3600
    let minutes := (seconds % 3600) / 60
    let secs := seconds % 60
    if hours ≠ 0 then
      toString hours ++ ":" ++ pad2 minutes ++ ":" ++ pad2 secs
    else
      toString minutes ++ ":" ++ pad2 secs

/-- Python's `needle in hay` check on character lists. -/
def listPrefixOf : List Char → List Char → Bool
  | [], _ => true
  | _ :: _, [] => false
  | a :: as, b :: bs => a == b && listPrefixOf as bs

/-- Python's `needle in hay` substring containment. -/
def listContains (needle : List Char) : List Char → Bool
  | [] => needle.isEmpty
  | c :: rest => listPrefixOf needle (c :: rest) || listContains needle rest

/-- `needle in hay` on strings. -/
def strContains (hay needle : String) : Bool :=
  listContains needle.data hay.data

/-- ASCII case folding of one character, as Python's `str.lower()`
applies it to the characters of these error texts. -/
def lowerChar (c : Char) : Char :=
  if 'A' ≤ c ∧ c ≤ 'Z' then Char.ofNat (c.toNat + 32) else c

/-- `error_msg.lower()`. -/
def lowerStr (s : String) : String := ⟨s.data.map lowerChar⟩

/-- The string-pattern error classification of the outer exception
handler of `fetch_video_info` (src lines 626-635). -/
def classify_fetch_error (error_msg : String) : String :=
  if strContains (lowerStr error_msg) "timeout" then
    "Error: Request timed out. Check your internet connection."
  else if strContains (lowerStr error_msg) "unavailable" then
    "Error: Video is unavailable or private"
  else if strContains (lowerStr error_msg) "not found" then
    "Error: Video or playlist not found"
  else
    "Error: " ++ error_msg

/-- `f"Successfully loaded {n} video(s)"`. -/
def successMsg (n : Nat) : String :=
  "Successfully loaded " ++ toString n ++ " video(s)"

/-- `f"Found playlist with {n} videos. Getting details..."`. -/
def foundMsg (n : Nat) : String :=
  "Found playlist with " ++ toString n ++ " videos. Getting details..."

/-- `f"Processing video {i+1}/{n}..."`. -/
def procText (i n : Nat) : String :=
  "Processing video " ++ toString (i + 1) ++ "/" ++ toString n ++ "..."

/-- The texts of the per-entry liveness statuses posted by the playlist
loop of `fetch_video_info` (src line 529), one per capped entry. -/
def procTexts (n : Nat) : Nat → List Entry → List String
  | _, [] => []
  | i, _ :: rest => procText i n :: procTexts n (i + 1) rest

/-- One iteration of the playlist loop of `fetch_video_info`
(src lines 527-568): the `VideoInfo` built for entry `entry` at index
`i` of a capped entry list of length `n`, with per-item detailed
resolution falling back to the shallow entry's fields on failure. -/
def playlistVideo (ex : Extractor) (i : Nat) (entry : Entry) : VideoInfo :=
  let video_id := entry.id.getD ("unknown_" ++ toString i)
  let video_url := pyOrD (pyOr entry.url entry.webpage_url)
      ("https://www.youtube.com/watch?v=" ++ video_id)
  match ex.detail video_url with
  | Except.ok single_info =>
      { id := video_id
        title := pyOrD (pyOr single_info.title entry.title) ("Video " ++ toString (i + 1))
        duration := format_duration (pyOrNat single_info.duration entry.duration)
        uploader := pyOrD (pyOr (pyOr single_info.uploader single_info.channel) entry.uploader)
            "Unknown Channel"
        url := video_url
        thumbnail := entry.thumbnail.getD ""
        selected := false }
  | Except.error _ =>
      { id := video_id
        title := pyOrD entry.title ("Video " ++ toString (i + 1))
        duration := format_duration (pyOrNat entry.duration none)
        uploader := pyOrD entry.uploader "Unknown Channel"
        url := video_url
        thumbnail := entry.thumbnail.getD ""
        selected := false }

/-- The `videos` list built by the playlist loop, in entry order. -/
def buildPlaylistVideos (ex : Extractor) : Nat → List Entry → List VideoInfo
  | _, [] => []
  | i, e :: rest => playlistVideo ex i e :: buildPlaylistVideos ex (i + 1) rest

/-- The descriptor the single-video branch of `fetch_video_info` builds
(src lines 577-621): one detailed resolution, falling back to the
shallow info's fields when it raises. -/
def singleVideo (ex : Extractor) (url : String) (info : ShallowInfo) : VideoInfo :=
  match ex.detail url with
  | Except.ok d =>
      { id := d.id.getD (info.id.getD "unknown")
        title := pyOrD (pyOr d.title info.title) "Untitled Video"
        duration := format_duration (pyOrNat d.duration info.duration)
        uploader := pyOrD (pyOr (pyOr d.uploader d.channel) info.uploader) "Unknown Channel"
        url := url
        thumbnail := d.thumbnail.getD (info.thumbnail.getD "")
        selected := false }
  | Except.error _ =>
      { id := info.id.getD "unknown"
        title := info.title.getD "Untitled Video"
        duration := format_duration (info.duration.getD 0)
        uploader := info.uploader.getD "Unknown Channel"
        url := url
        thumbnail := info.thumbnail.getD ""
        selected := false }

/-- The single-video branch of `fetch_video_info` (src lines 574-624):
the details status, then the `Result` and count `Status` messages. -/
def singleFetch (ex : Extractor) (url : String) (info : ShallowInfo) : List Msg :=
  Msg.status "Getting video details..." ::
    (let vids := [singleVideo ex url info]
     [Msg.result vids, Msg.status (successMsg vids.length)])

/-- `YouTubeDownloader.fetch_video_info` (src lines 500-635) as the list
of messages the fetch worker posts, given the extractor oracle `ex` and
the URL.  The initial shallow failure is caught by the inner handler
(src lines 516-518); `'entries' in info and info['entries']` selects the
playlist branch, which filters out null entries, caps at 20 and
processes each entry. -/
def fetch_video_info (ex : Extractor) (url : String) : List Msg :=
  Msg.status "Fetching video information..." ::
    match ex.shallow with
    | Except.error e => [Msg.status ("Error fetching basic info: " ++ e)]
    | Except.ok info =>
      match info.entries with
      | some (e₀ :: rest) =>
          let es := (((e₀ :: rest) : List (Option Entry)).filterMap (fun x => x)).take 20
          let n := es.length
          let vids := buildPlaylistVideos ex 0 es
          Msg.status (foundMsg n) :: (procTexts n 0 es).map Msg.status ++
            [Msg.result vids, Msg.status (successMsg vids.length)]
      | some [] => singleFetch ex url info
      | none => singleFetch ex url info

/-- The descriptor lists delivered by `Result` messages of a run. -/
def resultLists (ms : List Msg) : List (List VideoInfo) :=
  ms.filterMap (fun m => match m with | Msg.result vs => some vs | _ => none)

/-- Whether a message is a `Result`. -/
def isResultMsg : Msg → Bool
  | Msg.result _ => true
  | _ => false

/-- `f"Downloading {total} video(s)..."`. -/
def startMsg (total : Nat) : String :=
  "Downloading " ++ toString total ++ " video(s)..."

/-- `f"Successfully downloaded {total} video(s)"`. -/
def doneMsg (total : Nat) : String :=
  "Successfully downloaded " ++ toString total ++ " video(s)"

/-- `f"Downloading {i+1}/{total}: {video.title[:50]}..."` (src line 653). -/
def progLine (i total : Nat) (v : VideoInfo) : String :=
  "Downloading " ++ toString (i + 1) ++ "/" ++ toString total ++ ": " ++
    v.title.take 50 ++ "..."

/-- The download loop of `download_videos` (src lines 648-665), over the
already-filtered selected list.  `cancelAt i` is the value
`self.cancel_download.is_set()` reads at the check before 0-based item
`i`; `dl u` is the outcome of `ydl.download([u])`.  Returns the posted
messages and the URLs whose download completed. -/
def dlLoop (cancelAt : Nat → Bool) (dl : String → Except String Unit) (total : Nat) :
    Nat → List VideoInfo → List Msg × List String
  | _, [] => ([Msg.status (doneMsg total), Msg.progress ""], [])
  | i, v :: rest =>
    if cancelAt i then ([Msg.status "Download cancelled"], [])
    else
      match dl v.url with
      | Except.error e =>
          ([Msg.progress (progLine i total v), Msg.status ("Download error: " ++ e),
            Msg.progress ""], [])
      | Except.ok _ =>
          let r := dlLoop cancelAt dl total (i + 1) rest
          (Msg.progress (progLine i total v) :: r.1, v.url :: r.2)

/-- `download_videos` after the selection filter: empty-selection check,
start status, then the loop. -/
def downloadRun (cancelAt : Nat → Bool) (dl : String → Except String Unit)
    (sel : List VideoInfo) : List Msg × List String :=
  match sel with
  | [] => ([Msg.status "No videos selected"], [])
  | v :: rest =>
      let total := (v :: rest).length
      let r := dlLoop cancelAt dl total 0 (v :: rest)
      (Msg.status (startMsg total) :: r.1, r.2)

/-- `YouTubeDownloader.download_videos` (src lines 637-669). -/
def download_videos (cancelAt : Nat → Bool) (dl : String → Except String Unit)
    (videos : List VideoInfo) : List Msg × List String :=
  downloadRun cancelAt dl (videos.filter (fun v => v.selected))

/-- The per-item progress lines the download loop posts for a run of
items starting at index `i`, in order (one per item it starts). -/
def progMsgs (total : Nat) : Nat → List VideoInfo → List Msg
  | _, [] => []
  | i, v :: rest => Msg.progress (progLine i total v) :: progMsgs total (i + 1) rest

/-- The coordinator-owned state `handle_events`/`update` act on:
the URL field's text, the current video list, the number of live fetch
and download worker threads, and the shared cancellation flag. -/
structure SysState where
  urlText : String
  videos : List VideoInfo
  fetchAlive : Nat
  downloadAlive : Nat
  cancelFlag : Bool
deriving DecidableEq

/-- The coordinator events that touch that state: the three button
actions of `handle_events` (src lines 694-716), a worker thread
terminating, typing in the URL field, and the drain applying a `Result`
message (src lines 746-748). -/
inductive Act where
  | fetchClick
  | downloadClick
  | cancelClick
  | fetchExit
  | downloadExit
  | setUrl (u : String)
  | applyResult (vs : List VideoInfo)

/-- One coordinator event (src lines 694-716): fetch spawns only when
the trimmed URL is non-empty and no fetch thread is alive; download
spawns only when the video list is non-empty and no download thread is
alive, clearing the cancel flag first; cancel sets the flag. -/
def step (s : SysState) : Act → SysState
  | Act.fetchClick =>
      if s.urlText.trim ≠ "" ∧ s.fetchAlive = 0 then
        { s with fetchAlive := s.fetchAlive + 1 }
      else s
  | Act.downloadClick =>
      if s.videos ≠ [] ∧ s.downloadAlive = 0 then
        { s with downloadAlive := s.downloadAlive + 1, cancelFlag := false }
      else s
  | Act.cancelClick => { s with cancelFlag := true }
  | Act.fetchExit => { s with fetchAlive := s.fetchAlive - 1 }
  | Act.downloadExit => { s with downloadAlive := s.downloadAlive - 1 }
  | Act.setUrl u => { s with urlText := u }
  | Act.applyResult vs => { s with videos := vs }

/-- The state `YouTubeDownloader.__init__` sets up (src lines 486-493). -/
def initState : SysState :=
  { urlText := "", videos := [], fetchAlive := 0, downloadAlive := 0, cancelFlag := false }

/-- States the coordinator can reach from startup. -/
inductive Reachable : SysState → Prop where
  | init : Reachable initState
  | next {s : SysState} (a : Act) (h : Reachable s) : Reachable (step s a)

/-- The UI-visible text state the drain of `update` mutates
(src lines 739-750). -/
structure UIState where
  statusText : String
  progressText : String
  videos : List VideoInfo
deriving DecidableEq

/-- Applying one drained message (src lines 742-748). -/
def applyMsg (s : UIState) : Msg → UIState
  | Msg.status t => { s with statusText := t }
  | Msg.progress t => { s with progressText := t }
  | Msg.result vs => { s with videos := vs }

/-- Draining a list of messages in post order. -/
def applyMsgs (s : UIState) (ms : List Msg) : UIState :=
  ms.foldl applyMsg s

/-! ## Helper lemmas -/

theorem buildPlaylistVideos_length (ex : Extractor) :
    ∀ (l : List Entry) (i : Nat), (buildPlaylistVideos ex i l).length = l.length := by
  intro l
  induction l with
  | nil => intro i; rfl
  | cons e rest ih => intro i; simp [buildPlaylistVideos, ih]

theorem progMsgs_append (total : Nat) :
    ∀ (a b : List VideoInfo) (i : Nat),
      progMsgs total i (a ++ b) = progMsgs total i a ++ progMsgs total (i + a.length) b := by
  intro a
  induction a with
  | nil => intro b i; simp [progMsgs]
  | cons v rest ih =>
      intro b i
      simp only [List.cons_append, progMsgs, List.length_cons, List.append_eq]
      rw [ih b (i + 1)]
      have h : i + 1 + rest.length = i + (rest.length + 1) := by omega
      rw [h]

theorem progLine_ne_empty (i total : Nat) (v : VideoInfo) : progLine i total v ≠ "" := by
  intro h
  have h2 := congrArg String.length h
  rw [progLine] at h2
  simp only [String.length_append] at h2
  rw [show ("Downloading " : String).length = 12 from rfl,
      show ("" : String).length = 0 from rfl] at h2
  omega

theorem progress_empty_not_mem_progMsgs (total : Nat) :
    ∀ (l : List VideoInfo) (i : Nat), Msg.progress "" ∉ progMsgs total i l := by
  intro l
  induction l with
  | nil => intro i; simp [progMsgs]
  | cons v rest ih =>
      intro i
      simp only [progMsgs, List.mem_cons, not_or]
      refine ⟨?_, ih (i + 1)⟩
      intro h
      exact progLine_ne_empty i total v (by injection h.symm)

/-- If every cancellation check up to the end reads false and every
download succeeds, the loop completes: one progress line per item, the
final summary status, the clearing progress, and every URL downloaded. -/
theorem dlLoop_complete (cancelAt : Nat → Bool) (dl : String → Except String Unit)
    (total : Nat) :
    ∀ (l : List VideoInfo) (i : Nat),
      (∀ j, j < l.length → cancelAt (i + j) = false) →
      (∀ v ∈ l, dl v.url = Except.ok ()) →
      dlLoop cancelAt dl total i l =
        (progMsgs total i l ++ [Msg.status (doneMsg total), Msg.progress ""],
         l.map (fun v => v.url)) := by
  intro l
  induction l with
  | nil => intro i _ _; simp [dlLoop, progMsgs]
  | cons v rest ih =>
      intro i hc hdl
      have hc0 : cancelAt i = false := by simpa using hc 0 (by simp)
      have hv : dl v.url = Except.ok () := hdl v (by simp)
      rw [dlLoop, hc0]
      simp only [Bool.false_eq_true, if_false, hv]
      rw [ih (i + 1)
          (fun j hj => by
            have h2 := hc (j + 1) (by simp only [List.length_cons]; omega)
            have h3 : i + 1 + j = i + (j + 1) := by omega
            rw [h3]; exact h2)
          (fun w hw => hdl w (by simp [hw]))]
      simp [progMsgs]

/-- If the cancellation flag first reads true at the check before item
`c`, the loop posts the progress lines of the first `c` items, then the
cancelled status, and downloads exactly those `c` items. -/
theorem dlLoop_cancel (cancelAt : Nat → Bool) (dl : String → Except String Unit)
    (total : Nat) :
    ∀ (c : Nat) (l : List VideoInfo) (i : Nat),
      (∀ j, j < c → cancelAt (i + j) = false) →
      cancelAt (i + c) = true →
      c < l.length →
      (∀ v ∈ l, dl v.url = Except.ok ()) →
      dlLoop cancelAt dl total i l =
        (progMsgs total i (l.take c) ++ [Msg.status "Download cancelled"],
         (l.take c).map (fun v => v.url)) := by
  intro c
  induction c with
  | zero =>
      intro l i _ hat hlen _
      cases l with
      | nil => simp at hlen
      | cons v rest =>
          rw [dlLoop, show cancelAt i = true from by simpa using hat]
          simp [progMsgs]
  | succ c ih =>
      intro l i hbefore hat hlen hdl
      cases l with
      | nil => simp at hlen
      | cons v rest =>
          have hc0 : cancelAt i = false := by simpa using hbefore 0 (by simp)
          have hv : dl v.url = Except.ok () := hdl v (by simp)
          rw [dlLoop, hc0]
          simp only [Bool.false_eq_true, if_false, hv]
          rw [ih rest (i + 1)
              (fun j hj => by
                have h2 := hbefore (j + 1) (by omega)
                have h3 : i + 1 + j = i + (j + 1) := by omega
                rw [h3]; exact h2)
              (by have h3 : i + 1 + c = i + (c + 1) := by omega
                  rw [h3]; exact hat)
              (by simpa using Nat.lt_of_succ_lt_succ hlen)
              (fun w hw => hdl w (by simp [hw]))]
          simp [progMsgs, List.take_succ_cons]

/-- If no cancellation is seen through item `pre.length`, the first
`pre.length` downloads succeed and the next raises `e`, the loop posts
the progress lines of `pre ++ [v]`, the error status and the clearing
progress, and downloads exactly the items of `pre`. -/
theorem dlLoop_error (cancelAt : Nat → Bool) (dl : String → Except String Unit)
    (total : Nat) :
    ∀ (pre : List VideoInfo) (v : VideoInfo) (post : List VideoInfo) (i : Nat) (e : String),
      (∀ j, j ≤ pre.length → cancelAt (i + j) = false) →
      (∀ w ∈ pre, dl w.url = Except.ok ()) →
      dl v.url = Except.error e →
      dlLoop cancelAt dl total i (pre ++ v :: post) =
        (progMsgs total i (pre ++ [v]) ++
           [Msg.status ("Download error: " ++ e), Msg.progress ""],
         pre.map (fun w => w.url)) := by
  intro pre
  induction pre with
  | nil =>
      intro v post i e hc _ hv
      have hc0 : cancelAt i = false := by simpa using hc 0 (by simp)
      rw [List.nil_append, dlLoop, hc0]
      simp [hv, progMsgs]
  | cons w pre' ih =>
      intro v post i e hc hpre hv
      have hc0 : cancelAt i = false := by simpa using hc 0 (by simp)
      have hw : dl w.url = Except.ok () := hpre w (by simp)
      rw [List.cons_append, dlLoop, hc0]
      simp only [Bool.false_eq_true, if_false, hw]
      rw [ih v post (i + 1) e
          (fun j hj => by
            have h2 := hc (j + 1) (by simp only [List.length_cons]; omega)
            have h3 : i + 1 + j = i + (j + 1) := by omega
            rw [h3]; exact h2)
          (fun x hx => hpre x (by simp [hx]))
          hv]
      simp [progMsgs]

/-- `download_videos` on a non-empty selection. -/
theorem downloadRun_cons (cancelAt : Nat → Bool) (dl : String → Except String Unit)
    (sel : List VideoInfo) (h : sel ≠ []) :
    downloadRun cancelAt dl sel =
      (Msg.status (startMsg sel.length) :: (dlLoop cancelAt dl sel.length 0 sel).1,
       (dlLoop cancelAt dl sel.length 0 sel).2) := by
  cases sel with
  | nil => exact absurd rfl h
  | cons v rest => rfl

theorem applyMsgs_append (ui : UIState) (a b : List Msg) :
    applyMsgs ui (a ++ b) = applyMsgs (applyMsgs ui a) b := by
  simp [applyMsgs, List.foldl_append]

theorem getLast?_append_two {α : Type} (B : List α) (x y : α) :
    (B ++ [x, y]).getLast? = some y := by
  rw [List.getLast?_append_of_ne_nil B (by simp)]
  rfl

/-- A status message after a progress message leaves the progress text
at the progress message's value. -/
theorem applyMsgs_progress_status (ui : UIState) (B : List Msg) (t z : String) :
    (applyMsgs ui (B ++ [Msg.progress t, Msg.status z])).progressText = t := by
  rw [applyMsgs_append]
  rfl

/-- A final empty progress message clears the progress text. -/
theorem applyMsgs_status_clear (ui : UIState) (B : List Msg) (z : String) :
    (applyMsgs ui (B ++ [Msg.status z, Msg.progress ""])).progressText = "" := by
  rw [applyMsgs_append]
  rfl

/-- The format of an hour-or-longer duration: `H:MM:SS`. -/
theorem format_duration_hours (h m sec : Nat) (hh : 0 < h) (hm : m < 60) (hs : sec < 60) :
    format_duration (3600 * h + 60 * m + sec) =
      toString h ++ ":" ++ pad2 m ++ ":" ++ pad2 sec := by
  have h0 : 3600 * h + 60 * m + sec ≠ 0 := by omega
  have h1 : (3600 * h + 60 * m + sec) / 3600 = h := by omega
  have h2 : (3600 * h + 60 * m + sec) % 3600 = 60 * m + sec := by omega
  have h3 : (60 * m + sec) / 60 = m := by omega
  have h4 : (3600 * h + 60 * m + sec) % 60 = sec := by omega
  rw [format_duration]
  rw [if_neg h0]
  simp only [h1, h2, h3, h4]
  rw [if_pos (by omega : h ≠ 0)]

/-- The format of a sub-hour positive duration: `M:SS`. -/
theorem format_duration_minutes (m sec : Nat) (hm : m < 60) (hs : sec < 60)
    (hpos : 0 < 60 * m + sec) :
    format_duration (60 * m + sec) = toString m ++ ":" ++ pad2 sec := by
  have h0 : 60 * m + sec ≠ 0 := by omega
  have h1 : (60 * m + sec) / 3600 = 0 := by omega
  have h2 : (60 * m + sec) % 3600 = 60 * m + sec := by omega
  have h3 : (60 * m + sec) / 60 = m := by omega
  have h4 : (60 * m + sec) % 60 = sec := by omega
  rw [format_duration]
  rw [if_neg h0]
  simp only [h1, h2, h3, h4]
  rw [if_neg (by omega : ¬ (0 : Nat) ≠ 0)]

/-! ## Claims -/

set_option maxRecDepth 8192

/-- C7: the duration formatter maps 0 to "0:00", 65 to "1:05" and 3725
to "1:02:05", and in general renders `H:MM:SS` when the input is at
least one hour and `M:SS` otherwise. -/
theorem duration_format_spec :
    format_duration 0 = "0:00" ∧ format_duration 65 = "1:05" ∧
    format_duration 3725 = "1:02:05" ∧
    (∀ h m sec : Nat, 0 < h → m < 60 → sec < 60 →
      format_duration (3600 * h + 60 * m + sec) =
        toString h ++ ":" ++ pad2 m ++ ":" ++ pad2 sec) ∧
    (∀ m sec : Nat, m < 60 → sec < 60 → 0 < 60 * m + sec →
      format_duration (60 * m + sec) = toString m ++ ":" ++ pad2 sec) :=
  ⟨by decide, by decide, by decide, format_duration_hours, format_duration_minutes⟩

/-- C1 (amended): when the initial shallow resolution raises with text
`e`, the fetch worker posts exactly one error `Status`, whose text is
the raw `"Error fetching basic info: " ++ e` (not the classified
description), and returns without posting a `Result`. -/
theorem fetch_shallow_error_status (ex : Extractor) (url e : String)
    (h : ex.shallow = Except.error e) :
    fetch_video_info ex url =
      [Msg.status "Fetching video information...",
       Msg.status ("Error fetching basic info: " ++ e)] := by
  rw [fetch_video_info, h]

def exC1w : Extractor :=
  { shallow := Except.error "boom", detail := fun _ => Except.error "x" }

theorem fetch_shallow_error_status_witness :
    fetch_video_info exC1w "u" =
      [Msg.status "Fetching video information...",
       Msg.status ("Error fetching basic info: " ++ "boom")] :=
  fetch_shallow_error_status exC1w "u" "boom" rfl

def exC1cex : Extractor :=
  { shallow := Except.error "Connection TIMEOUT", detail := fun _ => Except.error "x" }

/-- C1 counterexample: a shallow-resolution failure whose text is
timeout-like is nevertheless reported verbatim with the
"Error fetching basic info:" prefix; the classified timeout description
is never posted, because the inner handler (src lines 516-518) returns
before the classifying outer handler (src lines 626-635) can run. -/
theorem fetch_shallow_error_unclassified_cex :
    classify_fetch_error "Connection TIMEOUT" =
      "Error: Request timed out. Check your internet connection." ∧
    fetch_video_info exC1cex "u" =
      [Msg.status "Fetching video information...",
       Msg.status "Error fetching basic info: Connection TIMEOUT"] ∧
    Msg.status (classify_fetch_error "Connection TIMEOUT") ∉ fetch_video_info exC1cex "u" := by
  refine ⟨by decide, by decide, by decide⟩

/-- C4 (amended): with a non-empty video list of which no item is
selected, the download action does spawn a worker (the liveness guard
only checks list non-emptiness), and that worker posts exactly one
`Status` "No videos selected" and returns without downloading
anything. -/
theorem download_no_selection (videos : List VideoInfo) (cancelAt : Nat → Bool)
    (dl : String → Except String Unit) (s : SysState)
    (hsel : videos.filter (fun v => v.selected) = [])
    (hv : s.videos = videos) (hne : videos ≠ []) (hd : s.downloadAlive = 0) :
    (step s Act.downloadClick).downloadAlive = s.downloadAlive + 1 ∧
    download_videos cancelAt dl videos = ([Msg.status "No videos selected"], []) := by
  constructor
  · rw [step, if_pos ⟨by rw [hv]; exact hne, hd⟩]
  · rw [download_videos, hsel]; rfl

def vC4 : VideoInfo :=
  { id := "a", title := "T", duration := "0:00", uploader := "U", url := "u",
    thumbnail := "", selected := false }

def sC4 : SysState :=
  { urlText := "", videos := [vC4], fetchAlive := 0, downloadAlive := 0, cancelFlag := false }

theorem download_no_selection_witness :
    (step sC4 Act.downloadClick).downloadAlive = sC4.downloadAlive + 1 ∧
    download_videos (fun _ => false) (fun _ => Except.ok ()) [vC4] =
      ([Msg.status "No videos selected"], []) :=
  download_no_selection [vC4] (fun _ => false) (fun _ => Except.ok ()) sC4
    (by decide) rfl (by decide) rfl

/-- C4 counterexample: at a concrete state whose video list is
non-empty but has zero selected items, the download action increments
the number of live download workers from 0 to 1, so a worker is spawned
even though the run ends with the single "No videos selected" status. -/
theorem download_no_selection_spawns_cex :
    [vC4].filter (fun v => v.selected) = [] ∧
    sC4.downloadAlive = 0 ∧
    (step sC4 Act.downloadClick).downloadAlive = 1 ∧
    download_videos (fun _ => false) (fun _ => Except.ok ()) [vC4] =
      ([Msg.status "No videos selected"], []) := by
  refine ⟨by decide, rfl, by decide, by decide⟩

/-- C8: when no cancellation is observed, the first `pre.length`
downloads succeed and the download of `v` raises `e`, the worker posts
the progress lines of the items it started, then a `Status` carrying
the error text and a `Progress` of the empty string, and returns having
downloaded only the items before the failing one. -/
theorem download_error_aborts (videos : List VideoInfo) (cancelAt : Nat → Bool)
    (dl : String → Except String Unit) (pre : List VideoInfo) (v : VideoInfo)
    (post : List VideoInfo) (e : String)
    (hsel : videos.filter (fun w => w.selected) = pre ++ v :: post)
    (hc : ∀ i, i ≤ pre.length → cancelAt i = false)
    (hpre : ∀ w ∈ pre, dl w.url = Except.ok ())
    (hv : dl v.url = Except.error e) :
    download_videos cancelAt dl videos =
      (Msg.status (startMsg (pre ++ v :: post).length) ::
         progMsgs (pre ++ v :: post).length 0 (pre ++ [v]) ++
         [Msg.status ("Download error: " ++ e), Msg.progress ""],
       pre.map (fun w => w.url)) := by
  rw [download_videos, hsel, downloadRun_cons _ _ _ (by simp)]
  rw [dlLoop_error cancelAt dl (pre ++ v :: post).length pre v post 0 e
      (fun j hj => by simpa using hc j hj) hpre hv]
  rfl

def vC8a : VideoInfo :=
  { id := "a", title := "A", duration := "0:05", uploader := "U", url := "ua",
    thumbnail := "", selected := true }

def vC8b : VideoInfo :=
  { id := "b", title := "B", duration := "0:05", uploader := "U", url := "ub",
    thumbnail := "", selected := true }

theorem download_error_aborts_witness :
    download_videos (fun _ => false)
        (fun u => if u = "ub" then Except.error "net down" else Except.ok ()) [vC8a, vC8b] =
      (Msg.status (startMsg ([vC8a] ++ vC8b :: []).length) ::
         progMsgs ([vC8a] ++ vC8b :: []).length 0 ([vC8a] ++ [vC8b]) ++
         [Msg.status ("Download error: " ++ "net down"), Msg.progress ""],
       [vC8a].map (fun w => w.url)) :=
  download_error_aborts [vC8a, vC8b] (fun _ => false)
    (fun u => if u = "ub" then Except.error "net down" else Except.ok ())
    [vC8a] vC8b [] "net down" (by decide) (fun _ _ => rfl)
    (fun w hw => by
      simp only [List.mem_singleton] at hw
      subst hw
      rfl)
    rfl

/-- C9: for a single-video URL whose detailed resolution raises, the
fetch still succeeds and the one posted descriptor carries the shallow
pass's title, (formatted) duration and uploader. -/
theorem single_fetch_shallow_fallback (ex : Extractor) (url e t u : String)
    (info : ShallowInfo) (dn : Nat)
    (hs : ex.shallow = Except.ok info) (he : info.entries = none)
    (hd : ex.detail url = Except.error e)
    (ht : info.title = some t) (hdur : info.duration = some dn) (hu : info.uploader = some u) :
    fetch_video_info ex url =
      [Msg.status "Fetching video information...",
       Msg.status "Getting video details...",
       Msg.result [{ id := info.id.getD "unknown", title := t,
                     duration := format_duration dn, uploader := u, url := url,
                     thumbnail := info.thumbnail.getD "", selected := false }],
       Msg.status (successMsg 1)] := by
  rw [fetch_video_info, hs]
  simp only [he, singleFetch, singleVideo, hd, ht, hdur, hu, Option.getD_some,
    List.length_singleton, List.cons_append, List.nil_append]

def infoC9 : ShallowInfo :=
  { entries := none, id := some "I", title := some "T", duration := some 65,
    uploader := some "U", thumbnail := some "th" }

def exC9 : Extractor :=
  { shallow := Except.ok infoC9, detail := fun _ => Except.error "x" }

theorem single_fetch_shallow_fallback_witness :
    fetch_video_info exC9 "u" =
      [Msg.status "Fetching video information...",
       Msg.status "Getting video details...",
       Msg.result [{ id := infoC9.id.getD "unknown", title := "T",
                     duration := format_duration 65, uploader := "U", url := "u",
                     thumbnail := infoC9.thumbnail.getD "", selected := false }],
       Msg.status (successMsg 1)] :=
  single_fetch_shallow_fallback exC9 "u" "x" "T" "U" infoC9 65 rfl rfl rfl rfl rfl rfl

/-- C5: whenever the initial shallow resolution succeeds, the fetch
worker's output is a block of `Status` messages followed by exactly one
`Result` carrying the whole built descriptor list, immediately followed
by one `Status` summarizing the count; in particular exactly one
`Result` is ever posted. -/
theorem fetch_success_result_discipline (ex : Extractor) (url : String) (info : ShallowInfo)
    (h : ex.shallow = Except.ok info) :
    ∃ (ts : List String) (vs : List VideoInfo),
      fetch_video_info ex url =
        ts.map Msg.status ++ [Msg.result vs, Msg.status (successMsg vs.length)] ∧
      (fetch_video_info ex url).countP isResultMsg = 1 := by
  have key : ∃ (ts : List String) (vs : List VideoInfo),
      fetch_video_info ex url =
        ts.map Msg.status ++ [Msg.result vs, Msg.status (successMsg vs.length)] := by
    rw [fetch_video_info, h]
    rcases hE : info.entries with - | ⟨- | ⟨e₀, rest⟩⟩
    · exact ⟨["Fetching video information...", "Getting video details..."],
        [singleVideo ex url info], by simp only [hE, singleFetch]; rfl⟩
    · exact ⟨["Fetching video information...", "Getting video details..."],
        [singleVideo ex url info], by simp only [hE, singleFetch]; rfl⟩
    · refine ⟨"Fetching video information..." ::
        foundMsg (((e₀ :: rest).filterMap (fun x => x)).take 20).length ::
        procTexts (((e₀ :: rest).filterMap (fun x => x)).take 20).length 0
          (((e₀ :: rest).filterMap (fun x => x)).take 20),
        buildPlaylistVideos ex 0 (((e₀ :: rest).filterMap (fun x => x)).take 20), ?_⟩
      simp only [hE, List.map_cons, List.cons_append]
  obtain ⟨ts, vs, hts⟩ := key
  refine ⟨ts, vs, hts, ?_⟩
  rw [hts, List.countP_append, List.countP_map]
  have h0 : ts.countP (isResultMsg ∘ Msg.status) = 0 := by
    simp [isResultMsg, Function.comp_def]
  rw [h0]
  simp [List.countP_cons, isResultMsg]

theorem fetch_success_result_discipline_witness :
    ∃ (ts : List String) (vs : List VideoInfo),
      fetch_video_info exC9 "u" =
        ts.map Msg.status ++ [Msg.result vs, Msg.status (successMsg vs.length)] ∧
      (fetch_video_info exC9 "u").countP isResultMsg = 1 :=
  fetch_success_result_discipline exC9 "u" infoC9 rfl

/-- C2 (amended): when the shallow resolution yields a collection with
more than 20 non-null entries, the delivered descriptor list has
exactly 20 entries and is built, in order, from the first 20 non-null
entries (`filterMap` then `take 20`). -/
theorem playlist_cap_twenty (ex : Extractor) (url : String) (info : ShallowInfo)
    (l : List (Option Entry))
    (hs : ex.shallow = Except.ok info) (he : info.entries = some l)
    (hn : 20 < (l.filterMap (fun x => x)).length) :
    ∃ ts : List String,
      fetch_video_info ex url =
        ts.map Msg.status ++
          [Msg.result (buildPlaylistVideos ex 0 ((l.filterMap (fun x => x)).take 20)),
           Msg.status (successMsg 20)] ∧
      (buildPlaylistVideos ex 0 ((l.filterMap (fun x => x)).take 20)).length = 20 := by
  have hlen : ((l.filterMap (fun x => x)).take 20).length = 20 := by
    rw [List.length_take]; omega
  have hb : (buildPlaylistVideos ex 0 ((l.filterMap (fun x => x)).take 20)).length = 20 := by
    rw [buildPlaylistVideos_length]; exact hlen
  cases l with
  | nil => simp at hn
  | cons e₀ rest =>
      refine ⟨"Fetching video information..." :: foundMsg 20 ::
        procTexts 20 0 (((e₀ :: rest).filterMap (fun x => x)).take 20), ?_, hb⟩
      rw [fetch_video_info, hs]
      simp only [he, List.map_cons, List.cons_append]
      rw [hlen, hb]

def entC2 : Entry :=
  { id := some "a", title := some "T", duration := some 5, uploader := some "U",
    url := some "http://u" }

def exC2cex : Extractor :=
  { shallow := Except.ok { entries := some (List.replicate 20 (none : Option Entry) ++ [some entC2]) }
    detail := fun _ => Except.error "x" }

/-- C2 counterexample: a collection of 21 items of which only one is
non-null: the delivered descriptor list has 1 entry, not 20. -/
theorem playlist_cap_cex :
    (List.replicate 20 (none : Option Entry) ++ [some entC2]).length = 21 ∧
    (resultLists (fetch_video_info exC2cex "u")).map List.length = [1] := by
  refine ⟨by decide, by decide⟩

def lC2 : List (Option Entry) := List.replicate 21 (some entC2)

def exC2w : Extractor :=
  { shallow := Except.ok { entries := some lC2 }, detail := fun _ => Except.error "x" }

theorem playlist_cap_twenty_witness :
    ∃ ts : List String,
      fetch_video_info exC2w "u" =
        ts.map Msg.status ++
          [Msg.result (buildPlaylistVideos exC2w 0 ((lC2.filterMap (fun x => x)).take 20)),
           Msg.status (successMsg 20)] ∧
      (buildPlaylistVideos exC2w 0 ((lC2.filterMap (fun x => x)).take 20)).length = 20 :=
  playlist_cap_twenty exC2w "u" { entries := some lC2 } lC2 rfl rfl (by decide)

/-- C3: cancellation observed before item `k` stops the run before that
item: the worker posts the progress lines of items `1..k-1` and then
only the "Download cancelled" status, and the completed downloads are
exactly the first `k-1` selected items (whole items, nothing rolled
back, nothing from `k` on).  Moreover no coordinator event other than
starting a download clears the cancel flag, and starting a download
clears it. -/
theorem cancellation_item_granularity :
    (∀ (videos : List VideoInfo) (cancelAt : Nat → Bool) (dl : String → Except String Unit)
       (sel : List VideoInfo) (k : Nat),
       videos.filter (fun v => v.selected) = sel →
       0 < k → k ≤ sel.length →
       (∀ i, i < k - 1 → cancelAt i = false) →
       cancelAt (k - 1) = true →
       (∀ u, dl u = Except.ok ()) →
       download_videos cancelAt dl videos =
         (Msg.status (startMsg sel.length) ::
            progMsgs sel.length 0 (sel.take (k - 1)) ++ [Msg.status "Download cancelled"],
          (sel.take (k - 1)).map (fun v => v.url))) ∧
    (∀ (s : SysState) (a : Act), s.cancelFlag = true → a ≠ Act.downloadClick →
       (step s a).cancelFlag = true) ∧
    (∀ s : SysState, s.videos ≠ [] → s.downloadAlive = 0 →
       (step s Act.downloadClick).cancelFlag = false) := by
  refine ⟨?_, ?_, ?_⟩
  · intro videos cancelAt dl sel k hsel hk hkle hbefore hat hdl
    have hne : sel ≠ [] := by
      intro h; rw [h] at hkle; simp at hkle; omega
    rw [download_videos, hsel, downloadRun_cons _ _ _ hne]
    rw [dlLoop_cancel cancelAt dl sel.length (k - 1) sel 0
        (fun j hj => by simpa using hbefore j hj)
        (by simpa using hat)
        (by omega)
        (fun v _ => hdl v.url)]
    rfl
  · intro s a hc hne
    cases a with
    | fetchClick => simp only [step]; split <;> exact hc
    | downloadClick => exact absurd rfl hne
    | cancelClick => rfl
    | fetchExit => exact hc
    | downloadExit => exact hc
    | setUrl u => exact hc
    | applyResult vs => exact hc
  · intro s h1 h2
    simp only [step]
    rw [if_pos ⟨h1, h2⟩]

/-- C6: from startup, no reachable coordinator state has two live fetch
workers or two live download workers, and a fetch (or download) action
arriving while a worker of the same kind is alive leaves the state
unchanged (spawns nothing). -/
theorem single_worker_discipline :
    (∀ s : SysState, Reachable s → s.fetchAlive ≤ 1 ∧ s.downloadAlive ≤ 1) ∧
    (∀ s : SysState, 0 < s.fetchAlive → step s Act.fetchClick = s) ∧
    (∀ s : SysState, 0 < s.downloadAlive → step s Act.downloadClick = s) := by
  refine ⟨?_, ?_, ?_⟩
  · intro s h
    induction h with
    | init => exact ⟨Nat.zero_le 1, Nat.zero_le 1⟩
    | next a h ih =>
        rename_i s'
        cases a with
        | fetchClick =>
            simp only [step]
            split
            · rename_i hg
              exact ⟨by show s'.fetchAlive + 1 ≤ 1; have := hg.2; omega, ih.2⟩
            · exact ih
        | downloadClick =>
            simp only [step]
            split
            · rename_i hg
              exact ⟨ih.1, by show s'.downloadAlive + 1 ≤ 1; have := hg.2; omega⟩
            · exact ih
        | cancelClick => exact ih
        | fetchExit =>
            exact ⟨by show s'.fetchAlive - 1 ≤ 1; have := ih.1; omega, ih.2⟩
        | downloadExit =>
            exact ⟨ih.1, by show s'.downloadAlive - 1 ≤ 1; have := ih.2; omega⟩
        | setUrl u => exact ih
        | applyResult vs => exact ih
  · intro s h
    have hg : ¬(s.urlText.trim ≠ "" ∧ s.fetchAlive = 0) := fun hg => absurd hg.2 (by omega)
    simp only [step]
    rw [if_neg hg]
  · intro s h
    have hg : ¬(s.videos ≠ [] ∧ s.downloadAlive = 0) := fun hg => absurd hg.2 (by omega)
    simp only [step]
    rw [if_neg hg]

/-- The exact message list of a cancelled run: cancellation first
observed at the check before the item after `v`. -/
theorem download_cancel_run_eq (videos : List VideoInfo) (cancelAt : Nat → Bool)
    (dl : String → Except String Unit) (pre : List VideoInfo) (v w : VideoInfo)
    (rest : List VideoInfo)
    (hsel : videos.filter (fun q => q.selected) = pre ++ v :: w :: rest)
    (hbef : ∀ i, i ≤ pre.length → cancelAt i = false)
    (hat : cancelAt (pre.length + 1) = true)
    (hdl : ∀ u, dl u = Except.ok ()) :
    (download_videos cancelAt dl videos).1 =
      (Msg.status (startMsg (pre ++ v :: w :: rest).length) ::
         progMsgs (pre ++ v :: w :: rest).length 0 pre) ++
        [Msg.progress (progLine pre.length (pre ++ v :: w :: rest).length v),
         Msg.status "Download cancelled"] := by
  rw [download_videos, hsel, downloadRun_cons _ _ _ (by simp)]
  rw [dlLoop_cancel cancelAt dl (pre ++ v :: w :: rest).length (pre.length + 1)
      (pre ++ v :: w :: rest) 0
      (fun j hj => by simpa using hbef j (by omega))
      (by simpa using hat)
      (by simp only [List.length_append, List.length_cons]; omega)
      (fun q _ => hdl q.url)]
  rw [List.take_append 1]
  rw [show ((v :: w :: rest).take 1) = [v] from rfl]
  rw [progMsgs_append]
  simp [progMsgs]

/-- The exact message list of a completed run. -/
theorem download_complete_run_eq (videos : List VideoInfo) (cancelAt : Nat → Bool)
    (dl : String → Except String Unit) (x : VideoInfo) (xs : List VideoInfo)
    (hsel : videos.filter (fun q => q.selected) = x :: xs)
    (hcan : ∀ i, cancelAt i = false)
    (hdl : ∀ u, dl u = Except.ok ()) :
    (download_videos cancelAt dl videos).1 =
      (Msg.status (startMsg (x :: xs).length) ::
         progMsgs (x :: xs).length 0 (x :: xs)) ++
        [Msg.status (doneMsg (x :: xs).length), Msg.progress ""] := by
  rw [download_videos, hsel, downloadRun_cons _ _ _ (by simp)]
  rw [dlLoop_complete cancelAt dl (x :: xs).length (x :: xs) 0
      (fun j _ => hcan (0 + j)) (fun q _ => hdl q.url)]
  rfl

/-- The exact message list of a run aborted by a download error. -/
theorem download_error_run_eq (videos : List VideoInfo) (cancelAt : Nat → Bool)
    (dl : String → Except String Unit) (pre : List VideoInfo) (v : VideoInfo)
    (post : List VideoInfo) (e : String)
    (hsel : videos.filter (fun q => q.selected) = pre ++ v :: post)
    (hbef : ∀ i, i ≤ pre.length → cancelAt i = false)
    (hpre : ∀ w ∈ pre, dl w.url = Except.ok ())
    (hv : dl v.url = Except.error e) :
    (download_videos cancelAt dl videos).1 =
      (Msg.status (startMsg (pre ++ v :: post).length) ::
         progMsgs (pre ++ v :: post).length 0 (pre ++ [v])) ++
        [Msg.status ("Download error: " ++ e), Msg.progress ""] := by
  rw [download_videos, hsel, downloadRun_cons _ _ _ (by simp)]
  rw [dlLoop_error cancelAt dl (pre ++ v :: post).length pre v post 0 e
      (fun j hj => by simpa using hbef j hj) hpre hv]
  rfl

/-- C10: on the cancellation path the download worker posts no
`Progress` at all after the cancellation check and never posts an empty
`Progress`, so after the coordinator drains the run's messages the
progress text still holds the last started item's line; on the
completion and error paths the final message is an empty `Progress`,
which clears the progress text. -/
theorem cancel_path_progress_frame :
    (∀ (videos : List VideoInfo) (cancelAt : Nat → Bool) (dl : String → Except String Unit)
       (pre : List VideoInfo) (v w : VideoInfo) (rest : List VideoInfo) (ui : UIState),
       videos.filter (fun q => q.selected) = pre ++ v :: w :: rest →
       (∀ i, i ≤ pre.length → cancelAt i = false) →
       cancelAt (pre.length + 1) = true →
       (∀ u, dl u = Except.ok ()) →
       Msg.progress "" ∉ (download_videos cancelAt dl videos).1 ∧
       (download_videos cancelAt dl videos).1.getLast? =
         some (Msg.status "Download cancelled") ∧
       (applyMsgs ui (download_videos cancelAt dl videos).1).progressText =
         progLine pre.length (pre ++ v :: w :: rest).length v) ∧
    (∀ (videos : List VideoInfo) (cancelAt : Nat → Bool) (dl : String → Except String Unit)
       (x : VideoInfo) (xs : List VideoInfo) (ui : UIState),
       videos.filter (fun q => q.selected) = x :: xs →
       (∀ i, cancelAt i = false) →
       (∀ u, dl u = Except.ok ()) →
       (download_videos cancelAt dl videos).1.getLast? = some (Msg.progress "") ∧
       (applyMsgs ui (download_videos cancelAt dl videos).1).progressText = "") ∧
    (∀ (videos : List VideoInfo) (cancelAt : Nat → Bool) (dl : String → Except String Unit)
       (pre : List VideoInfo) (v : VideoInfo) (post : List VideoInfo) (e : String) (ui : UIState),
       videos.filter (fun q => q.selected) = pre ++ v :: post →
       (∀ i, i ≤ pre.length → cancelAt i = false) →
       (∀ w ∈ pre, dl w.url = Except.ok ()) →
       dl v.url = Except.error e →
       (download_videos cancelAt dl videos).1.getLast? = some (Msg.progress "") ∧
       (applyMsgs ui (download_videos cancelAt dl videos).1).progressText = "") := by
  refine ⟨?_, ?_, ?_⟩
  · intro videos cancelAt dl pre v w rest ui hsel hbef hat hdl
    have hmsgs := download_cancel_run_eq videos cancelAt dl pre v w rest hsel hbef hat hdl
    refine ⟨?_, ?_, ?_⟩
    · rw [hmsgs]
      intro hmem
      rcases List.mem_append.mp hmem with h | h
      · rcases List.mem_cons.mp h with h1 | h2
        · exact Msg.noConfusion h1
        · exact progress_empty_not_mem_progMsgs _ pre 0 h2
      · rcases List.mem_cons.mp h with h3 | h4
        · exact progLine_ne_empty _ _ _ ((Msg.progress.inj h3).symm)
        · rcases List.mem_cons.mp h4 with h5 | h6
          · exact Msg.noConfusion h5
          · exact absurd h6 (List.not_mem_nil _)
    · rw [hmsgs]; exact getLast?_append_two _ _ _
    · rw [hmsgs]; exact applyMsgs_progress_status ui _ _ _
  · intro videos cancelAt dl x xs ui hsel hcan hdl
    have hmsgs := download_complete_run_eq videos cancelAt dl x xs hsel hcan hdl
    exact ⟨by rw [hmsgs]; exact getLast?_append_two _ _ _,
      by rw [hmsgs]; exact applyMsgs_status_clear ui _ _⟩
  · intro videos cancelAt dl pre v post e ui hsel hbef hpre hv
    have hmsgs := download_error_run_eq videos cancelAt dl pre v post e hsel hbef hpre hv
    exact ⟨by rw [hmsgs]; exact getLast?_append_two _ _ _,
      by rw [hmsgs]; exact applyMsgs_status_clear ui _ _⟩
